import Mathlib

/-!
# Verification of the HandTracker streaming protocol

Shallow embedding of the length-prefixed streaming protocol of the
HandTracker repository (`blender_server.py`, `main.py`,
`client_viewer.py`, `viewer_3d.py`, `blender_hand_tracker.py`,
`hand_3d_model.py`) and proofs of the testable properties stated in its
specification.

Bytes are modelled as natural numbers `< 256`; byte strings as
`List Nat`.  The wire payload is produced by `pickle.dumps` on the dict
`{'landmarks': ..., 'frame': ...}`; we model the pickle serialization of
exactly these payload values by an explicit executable codec (`dumps` /
`loads`) that preserves the structure bit for bit, the way pickle
protocol data does: `float64` coordinates are carried as their 64-bit
patterns (naturals `< 2^64`), and `pickle.loads` on a complete
serialization recovers the value while ignoring trailing bytes, failing
(`none`) on truncated input.
-/

set_option maxRecDepth 100000

namespace HandTracker

/-- A single hand landmark as serialized by `process_frame`
(`blender_server.py` lines 139-145): a record `{'x': …, 'y': …, 'z': …}`
of three `float64` values, each carried by its 64-bit pattern. -/
structure Landmark where
  x : Nat
  y : Nat
  z : Nat
deriving DecidableEq, Repr

/-- An ordered list of landmarks for one hand (`landmarks_data`). -/
abbrev Hand := List Landmark

/-- The payload dict sent on the wire:
`{'landmarks': landmarks_list, 'frame': bytes}` (`broadcast_landmarks`,
`blender_server.py` lines 160-163; `broadcast_frame`, `main.py`). -/
structure Frame where
  landmarks : List Hand
  frame : List Nat
deriving DecidableEq, Repr

/-! ## struct.pack("Q") / struct.unpack("Q")

`struct.pack("Q", n)` with no byte-order modifier uses the native byte
order of the host, which on the x86-64/ARM64 machines this program runs
on is little-endian: 8 bytes, least significant first.  The receive
loops use `struct.unpack("Q", data[:8])`, the same native format. -/

/-- `k` bytes of `n`, least significant byte first (little-endian). -/
def natToBytesLE : Nat → Nat → List Nat
  | 0, _ => []
  | k + 1, n => n % 256 :: natToBytesLE k (n / 256)

/-- Read back a little-endian byte string as a natural number. -/
def bytesToNatLE : List Nat → Nat
  | [] => 0
  | b :: bs => b + 256 * bytesToNatLE bs

/-- `struct.pack("Q", n)`: 8 bytes, native (little-endian) order. -/
def packQ (n : Nat) : List Nat := natToBytesLE 8 n

/-- `struct.unpack("Q", bs[:8])[0]`. -/
def unpackQ (bs : List Nat) : Nat := bytesToNatLE (bs.take 8)

theorem natToBytesLE_length (k n : Nat) : (natToBytesLE k n).length = k := by
  induction k generalizing n with
  | zero => rfl
  | succ k ih => simp [natToBytesLE, ih]

theorem bytesToNatLE_natToBytesLE (k n : Nat) :
    bytesToNatLE (natToBytesLE k n) = n % 256 ^ k := by
  induction k generalizing n with
  | zero => simp [natToBytesLE, bytesToNatLE, Nat.mod_one]
  | succ k ih =>
    simp only [natToBytesLE, bytesToNatLE, ih]
    rw [pow_succ, mul_comm (256 ^ k) 256, Nat.mod_mul]

/-! ## The pickle payload codec

`pickle.dumps { 'landmarks': …, 'frame': … }` and `pickle.loads`.  The
model serializes each component with explicit little-endian 64-bit
counts and 64-bit coordinate patterns; `loads` parses it back,
faithful to the two properties of pickle the program relies on:
`loads (dumps v) = v` for these payload values (with trailing bytes
ignored) and a raised error (`none`) on truncated input. -/

/-- Serialization of one landmark record: the three 64-bit coordinate
patterns in order. -/
def dumpLandmark (lm : Landmark) : List Nat :=
  natToBytesLE 8 lm.x ++ natToBytesLE 8 lm.y ++ natToBytesLE 8 lm.z

/-- Serialization of one hand: landmark count, then the landmarks. -/
def dumpHand (h : Hand) : List Nat :=
  natToBytesLE 8 h.length ++ (h.map dumpLandmark).flatten

/-- Model of `pickle.dumps({'landmarks': f.landmarks, 'frame': f.frame})`:
hand count, the hands, then the image blob length and its raw bytes. -/
def dumps (f : Frame) : List Nat :=
  natToBytesLE 8 f.landmarks.length ++ (f.landmarks.map dumpHand).flatten ++
    natToBytesLE 8 f.frame.length ++ f.frame

/-- Read one 64-bit little-endian number; fails on truncated input. -/
def readNat8 (bs : List Nat) : Option (Nat × List Nat) :=
  if 8 ≤ bs.length then some (bytesToNatLE (bs.take 8), bs.drop 8) else none

/-- Parse one landmark record. -/
def readLandmark (bs : List Nat) : Option (Landmark × List Nat) := do
  let (x, bs) ← readNat8 bs
  let (y, bs) ← readNat8 bs
  let (z, bs) ← readNat8 bs
  some (⟨x, y, z⟩, bs)

/-- Parse `n` consecutive items with the item parser `rd`. -/
def readSeq {α : Type} (rd : List Nat → Option (α × List Nat)) :
    Nat → List Nat → Option (List α × List Nat)
  | 0, bs => some ([], bs)
  | n + 1, bs => do
    let (a, bs) ← rd bs
    let (as, bs) ← readSeq rd n bs
    some (a :: as, bs)

/-- Parse one hand: its landmark count, then that many landmarks. -/
def readHand (bs : List Nat) : Option (Hand × List Nat) := do
  let (n, bs) ← readNat8 bs
  let (lms, bs) ← readSeq readLandmark n bs
  some (lms, bs)

/-- Take `n` raw bytes; fails on truncated input. -/
def readBlob (n : Nat) (bs : List Nat) : Option (List Nat × List Nat) :=
  if n ≤ bs.length then some (bs.take n, bs.drop n) else none

/-- Model of `pickle.loads` on the payload schema: recovers the
`{'landmarks', 'frame'}` dict, ignoring any trailing bytes, and fails
(`none`, a raised `UnpicklingError`/`EOFError`) on truncated input. -/
def loads (bs : List Nat) : Option Frame := do
  let (hn, bs) ← readNat8 bs
  let (hands, bs) ← readSeq readHand hn bs
  let (fn, bs) ← readNat8 bs
  let (blob, _) ← readBlob fn bs
  some (⟨hands, blob⟩ : Frame)

/-! ## Well-formedness: the values the program actually serializes

Coordinates are `float64` bit patterns (`< 2^64`); `struct.pack("Q")`
and pickle both fail on lengths at or beyond `2^64`, so every message
that reaches the wire satisfies these bounds. -/

/-- The landmark's coordinates are 64-bit patterns. -/
def Landmark.wf (lm : Landmark) : Bool :=
  decide (lm.x < 2 ^ 64) && decide (lm.y < 2 ^ 64) && decide (lm.z < 2 ^ 64)

/-- All counts and coordinates of the frame fit in 64 bits. -/
def Frame.wf (f : Frame) : Bool :=
  f.landmarks.all (fun h => h.all Landmark.wf && decide (h.length < 2 ^ 64)) &&
    decide (f.landmarks.length < 2 ^ 64) && decide (f.frame.length < 2 ^ 64)

theorem readNat8_append (n : Nat) (rest : List Nat) (h : n < 2 ^ 64) :
    readNat8 (natToBytesLE 8 n ++ rest) = some (n, rest) := by
  have hlen : (natToBytesLE 8 n).length = 8 := natToBytesLE_length 8 n
  have hval : bytesToNatLE (natToBytesLE 8 n) = n := by
    rw [bytesToNatLE_natToBytesLE]
    exact Nat.mod_eq_of_lt (lt_of_lt_of_le h (by norm_num))
  rw [readNat8, if_pos (by simp only [List.length_append, hlen]; omega)]
  rw [List.take_append_of_le_length (le_of_eq hlen.symm),
    List.drop_append_of_le_length (le_of_eq hlen.symm)]
  rw [List.take_of_length_le (le_of_eq hlen), List.drop_eq_nil_of_le (le_of_eq hlen)]
  rw [hval, List.nil_append]

theorem readLandmark_append (lm : Landmark) (rest : List Nat) (h : lm.wf) :
    readLandmark (dumpLandmark lm ++ rest) = some (lm, rest) := by
  simp only [Landmark.wf, Bool.and_eq_true, decide_eq_true_eq] at h
  obtain ⟨⟨hx, hy⟩, hz⟩ := h
  simp only [readLandmark, dumpLandmark, List.append_assoc,
    readNat8_append _ _ hx, readNat8_append _ _ hy, readNat8_append _ _ hz,
    Option.bind_eq_bind, Option.some_bind]

theorem readSeq_append {α : Type} (rd : List Nat → Option (α × List Nat))
    (dump : α → List Nat) (l : List α) (rest : List Nat)
    (h : ∀ a ∈ l, ∀ r : List Nat, rd (dump a ++ r) = some (a, r)) :
    readSeq rd l.length ((l.map dump).flatten ++ rest) = some (l, rest) := by
  induction l with
  | nil => simp [readSeq]
  | cons a l ih =>
    simp only [List.map_cons, List.flatten_cons, List.length_cons, List.append_assoc]
    simp only [readSeq, h a (List.mem_cons_self a l),
      ih (fun a ha r => h a (List.mem_cons_of_mem _ ha) r),
      Option.bind_eq_bind, Option.some_bind]

theorem readHand_append (hd : Hand) (rest : List Nat)
    (h1 : ∀ lm ∈ hd, lm.wf) (h2 : hd.length < 2 ^ 64) :
    readHand (dumpHand hd ++ rest) = some (hd, rest) := by
  have hseq := readSeq_append readLandmark dumpLandmark hd rest
    (fun lm hlm r => readLandmark_append lm r (h1 lm hlm))
  simp only [readHand, dumpHand, List.append_assoc, readNat8_append _ _ h2,
    hseq, Option.bind_eq_bind, Option.some_bind]

theorem readBlob_append (blob rest : List Nat) :
    readBlob blob.length (blob ++ rest) = some (blob, rest) := by
  rw [readBlob, if_pos (by simp)]
  simp

/-- `pickle.loads` inverts `pickle.dumps` on every well-formed payload,
with arbitrary trailing bytes ignored. -/
theorem loads_dumps_append (f : Frame) (rest : List Nat) (h : f.wf) :
    loads (dumps f ++ rest) = some f := by
  simp only [Frame.wf, Bool.and_eq_true, decide_eq_true_eq, List.all_eq_true] at h
  obtain ⟨⟨hhands, hn⟩, hfn⟩ := h
  have hseq := readSeq_append readHand dumpHand f.landmarks
    (natToBytesLE 8 f.frame.length ++ (f.frame ++ rest))
    (fun hd hhd r => by
      have := hhands hd hhd
      simp only [Bool.and_eq_true, decide_eq_true_eq, List.all_eq_true] at this
      exact readHand_append hd r this.1 this.2)
  simp only [loads, dumps, List.append_assoc, readNat8_append _ _ hn, hseq,
    readNat8_append _ _ hfn, readBlob_append, Option.bind_eq_bind, Option.some_bind]

theorem loads_dumps (f : Frame) (h : f.wf) : loads (dumps f) = some f := by
  have := loads_dumps_append f [] h
  simpa using this

/-! ## Message encode / decode

`broadcast_landmarks` (`blender_server.py` line 165) and
`broadcast_frame` (`main.py`) build
`message = struct.pack("Q", len(data)) + data`; the receive loops
(`client_viewer.py` lines 152-167, `viewer_3d.py`, twin code in
`blender_hand_tracker.py`) strip the 8-byte size, take that many bytes
and run `pickle.loads` on them. -/

/-- The encode step: `struct.pack("Q", len(data)) + data`. -/
def encodeFrame (f : Frame) : List Nat :=
  packQ (dumps f).length ++ dumps f

/-- The decode step of the receive loops: read `msg_size` from the
first 8 bytes, take `msg_size` bytes after them, `pickle.loads` those. -/
def decodeFrame (msg : List Nat) : Option Frame :=
  loads ((msg.drop 8).take (unpackQ (msg.take 8)))

theorem packQ_length (n : Nat) : (packQ n).length = 8 := natToBytesLE_length 8 n

theorem unpackQ_packQ (n : Nat) (h : n < 2 ^ 64) : unpackQ (packQ n) = n := by
  rw [unpackQ, packQ, List.take_of_length_le (le_of_eq (natToBytesLE_length 8 n)),
    bytesToNatLE_natToBytesLE]
  exact Nat.mod_eq_of_lt (lt_of_lt_of_le h (by norm_num))

theorem unpackQ_append (n : Nat) (rest : List Nat) (h : n < 2 ^ 64) :
    unpackQ (packQ n ++ rest) = n := by
  rw [unpackQ, List.take_append_of_le_length (le_of_eq (packQ_length n).symm),
    List.take_of_length_le (le_of_eq (packQ_length n)), packQ, bytesToNatLE_natToBytesLE]
  exact Nat.mod_eq_of_lt (lt_of_lt_of_le h (by norm_num))

/-- C1.  Decoding the result of encoding any well-formed Frame payload
yields that payload back. -/
theorem decodeFrame_encodeFrame (f : Frame) (hwf : f.wf)
    (hlen : (dumps f).length < 2 ^ 64) :
    decodeFrame (encodeFrame f) = some f := by
  rw [decodeFrame, encodeFrame]
  rw [List.take_append_of_le_length (le_of_eq (packQ_length _).symm),
    List.take_of_length_le (le_of_eq (packQ_length _)),
    List.drop_append_of_le_length (le_of_eq (packQ_length _).symm),
    List.drop_eq_nil_of_le (le_of_eq (packQ_length _)), List.nil_append]
  rw [show unpackQ (packQ (dumps f).length) = (dumps f).length from by
    rw [unpackQ, List.take_of_length_le (le_of_eq (packQ_length _)), packQ,
      bytesToNatLE_natToBytesLE]
    exact Nat.mod_eq_of_lt (lt_of_lt_of_le hlen (by norm_num))]
  rw [List.take_length]
  exact loads_dumps f hwf

/-! ## The reassembly loop (Stream Reader)

`receive_data` in `client_viewer.py` (lines 140-164) and
`viewer_3d.py` (lines 206-230) keeps a buffer `data`, reads
`recv(16384)` packets until 8 bytes are available, unpacks `msg_size`,
reads packets until `msg_size` payload bytes are available, then
consumes exactly that payload and loops.  A zero-length packet raises
`ConnectionError`, ending the loop.  The code strips the 8 size bytes
from `data` as soon as they arrive and keeps `msg_size` in a local; the
model below leaves them at the front of the buffer until the payload is
complete, which consumes the same bytes and emits the same payloads. -/

/-- One receive loop run on a queue of socket packets: the sequence of
payload byte strings handed to `pickle.loads`, in order. -/
def receiveLoop (chunks : List (List Nat)) (data : List Nat) : List (List Nat) :=
  if data.length < 8 then
    match chunks with
    | [] => []
    | packet :: chunks' =>
      if packet.isEmpty then [] else receiveLoop chunks' (data ++ packet)
  else if (data.drop 8).length < unpackQ data then
    match chunks with
    | [] => []
    | packet :: chunks' =>
      if packet.isEmpty then [] else receiveLoop chunks' (data ++ packet)
  else
    (data.drop 8).take (unpackQ data) ::
      receiveLoop chunks ((data.drop 8).drop (unpackQ data))
termination_by (chunks.map List.length).sum + chunks.length + data.length
decreasing_by
  · simp only [List.map_cons, List.sum_cons, List.length_cons, List.length_append]
    omega
  · simp only [List.map_cons, List.sum_cons, List.length_cons, List.length_append]
    omega
  · simp only [List.length_drop]
    omega

/-- Greedy extraction of every complete length-prefixed payload from
the front of a fully accumulated buffer. -/
def extractAll (buf : List Nat) : List (List Nat) :=
  if buf.length < 8 then []
  else if (buf.drop 8).length < unpackQ buf then []
  else (buf.drop 8).take (unpackQ buf) :: extractAll ((buf.drop 8).drop (unpackQ buf))
termination_by buf.length
decreasing_by
  simp only [List.length_drop]
  omega

/-- Fragmentation does not matter: running the receive loop over any
queue of non-empty packets produces the same payloads as greedy
extraction from the concatenation of the buffer and all packets. -/
theorem receiveLoop_eq_extractAll (chunks : List (List Nat)) (data : List Nat)
    (hne : ∀ c ∈ chunks, c ≠ []) :
    receiveLoop chunks data = extractAll (data ++ chunks.flatten) := by
  induction chunks, data using receiveLoop.induct with
  | case1 data h8 =>
    rw [receiveLoop, if_pos h8, List.flatten_nil, List.append_nil, extractAll, if_pos h8]
  | case2 data h8 packet chunks' hempty =>
    exact absurd (List.isEmpty_iff.mp hempty) (hne packet (List.mem_cons_self _ _))
  | case3 data h8 packet chunks' hempty ih =>
    rw [receiveLoop, if_pos h8, if_neg hempty]
    rw [ih (fun c hc => hne c (List.mem_cons_of_mem _ hc))]
    rw [List.flatten_cons, List.append_assoc]
  | case4 data h8 hshort =>
    rw [receiveLoop, if_neg h8, if_pos hshort, List.flatten_nil, List.append_nil,
      extractAll, if_neg h8, if_pos hshort]
  | case5 data h8 hshort packet chunks' hempty =>
    exact absurd (List.isEmpty_iff.mp hempty) (hne packet (List.mem_cons_self _ _))
  | case6 data h8 hshort packet chunks' hempty ih =>
    rw [receiveLoop, if_neg h8, if_pos hshort, if_neg hempty]
    rw [ih (fun c hc => hne c (List.mem_cons_of_mem _ hc))]
    rw [List.flatten_cons, List.append_assoc]
  | case7 chunks data h8 hshort ih =>
    have hd8 : 8 ≤ data.length := by omega
    have hu : unpackQ (data ++ chunks.flatten) = unpackQ data := by
      rw [unpackQ, unpackQ, List.take_append_of_le_length hd8]
    have hdrop : (data ++ chunks.flatten).drop 8 = data.drop 8 ++ chunks.flatten :=
      List.drop_append_of_le_length hd8
    have hsize : unpackQ data ≤ (data.drop 8).length := by omega
    rw [receiveLoop.eq_def, if_neg h8, if_neg hshort]
    rw [extractAll]
    rw [if_neg (by simp only [List.length_append]; omega)]
    rw [hu, hdrop]
    rw [if_neg (by simp only [List.length_append]; omega)]
    rw [List.take_append_of_le_length hsize, List.drop_append_of_le_length hsize]
    rw [ih hne]

/-- Extracting from a buffer that starts with one complete encoded
message yields exactly that message's payload and continues with the
rest of the buffer untouched. -/
theorem extractAll_encode_cons (f : Frame) (rest : List Nat)
    (hlen : (dumps f).length < 2 ^ 64) :
    extractAll (encodeFrame f ++ rest) = dumps f :: extractAll rest := by
  rw [encodeFrame, List.append_assoc]
  have h8 : 8 ≤ (packQ (dumps f).length).length := le_of_eq (packQ_length _).symm
  have hu : unpackQ (packQ (dumps f).length ++ (dumps f ++ rest)) = (dumps f).length :=
    unpackQ_append _ _ hlen
  rw [extractAll]
  rw [if_neg (by simp only [List.length_append, packQ_length]; omega)]
  rw [hu, List.drop_append_of_le_length h8,
    List.drop_eq_nil_of_le (le_of_eq (packQ_length _)), List.nil_append]
  rw [if_neg (by simp only [List.length_append]; omega)]
  rw [List.take_append_of_le_length le_rfl, List.take_length,
    List.drop_append_of_le_length le_rfl, List.drop_length, List.nil_append]

/-- Extracting from the concatenation of encoded messages yields
exactly their payloads, in order. -/
theorem extractAll_encodes (msgs : List Frame)
    (hlen : ∀ m ∈ msgs, (dumps m).length < 2 ^ 64) :
    extractAll (msgs.map encodeFrame).flatten = msgs.map dumps := by
  induction msgs with
  | nil =>
    rw [List.map_nil, List.flatten_nil, extractAll, if_pos (by simp), List.map_nil]
  | cons m msgs ih =>
    rw [List.map_cons, List.flatten_cons,
      extractAll_encode_cons m _ (hlen m (List.mem_cons_self _ _)),
      ih (fun x hx => hlen x (List.mem_cons_of_mem _ hx)), List.map_cons]

/-! ## The spec's claimed header format

The specification describes the length field as big-endian; the
definition below follows the spec's words so it can be compared with
the `struct.pack("Q")` header the code actually produces. -/

/-- Follows the spec's words (`[8-byte unsigned length, big-endian]`):
the same 8 bytes, most significant first. -/
def specBigEndianHeader (n : Nat) : List Nat := (natToBytesLE 8 n).reverse

/-! ## Concrete inputs used by the witnesses -/

/-- A hand with the 21 landmarks MediaPipe reports. -/
def witnessHand : Hand :=
  (List.range 21).map (fun i => ⟨i, i + 1, i + 2⟩)

/-- A frame with one 21-landmark hand and a 3-byte image blob. -/
def witnessFrame : Frame := ⟨[witnessHand], [10, 200, 255]⟩

/-- Two frames used for the stream-reassembly witness. -/
def witnessMsgs : List Frame := [witnessFrame, ⟨[], []⟩]

/-- Their wire bytes split one byte per packet. -/
def witnessChunks : List (List Nat) :=
  (witnessMsgs.map encodeFrame).flatten.map (fun b => [b])

/-! ## Claims -/

/-- C1.  For every Frame payload with 0, 1 or 2 hands of 21 landmark
records each (landmark coordinates being float64 bit patterns) and an
arbitrary byte blob whose serialization `struct.pack("Q", len(data))`
accepts, the prefix-strip-then-pickle-load decode of the
pickle-serialize-then-prefix encode yields the original payload. -/
theorem decode_encode_roundtrip (f : Frame)
    (hhands : f.landmarks.length ≤ 2)
    (h21 : ∀ h ∈ f.landmarks, h.length = 21)
    (hlm : ∀ h ∈ f.landmarks, ∀ lm ∈ h, lm.wf)
    (hsize : (dumps f).length < 2 ^ 64) :
    decodeFrame (encodeFrame f) = some f := by
  apply decodeFrame_encodeFrame f _ hsize
  have hblob : f.frame.length < 2 ^ 64 := by
    have hfl : f.frame.length ≤ (dumps f).length := by
      rw [dumps]
      simp only [List.length_append]
      omega
    omega
  simp only [Frame.wf, Bool.and_eq_true, decide_eq_true_eq, List.all_eq_true]
  refine ⟨⟨fun h hh => ⟨fun lm hlm' => hlm h hh lm hlm', ?_⟩, by omega⟩, hblob⟩
  rw [h21 h hh]
  norm_num

/-- Witness for C1 at a concrete one-hand frame. -/
theorem decode_encode_roundtrip_witness :
    witnessFrame.landmarks.length ≤ 2 ∧
      (∀ h ∈ witnessFrame.landmarks, h.length = 21) ∧
      (∀ h ∈ witnessFrame.landmarks, ∀ lm ∈ h, lm.wf) ∧
      (dumps witnessFrame).length < 2 ^ 64 ∧
      decodeFrame (encodeFrame witnessFrame) = some witnessFrame :=
  ⟨by decide, by decide, by decide, by decide,
    decode_encode_roundtrip witnessFrame (by decide) (by decide) (by decide) (by decide)⟩

/-- C2.  Feeding the receive loop the bytes of any sequence of encoded
frames, split into arbitrary non-empty packets, yields exactly the
original frames, in order, none duplicated, dropped or corrupted. -/
theorem fragmentation_independence (msgs : List Frame) (chunks : List (List Nat))
    (hwf : ∀ m ∈ msgs, m.wf)
    (hlen : ∀ m ∈ msgs, (dumps m).length < 2 ^ 64)
    (hne : ∀ c ∈ chunks, c ≠ [])
    (hjoin : chunks.flatten = (msgs.map encodeFrame).flatten) :
    (receiveLoop chunks []).map loads = msgs.map some := by
  rw [receiveLoop_eq_extractAll chunks [] hne, List.nil_append, hjoin,
    extractAll_encodes msgs hlen, List.map_map]
  exact List.map_congr_left (fun m hm => loads_dumps m (hwf m hm))

/-- Witness for C2: two frames, delivered one byte per packet. -/
theorem fragmentation_independence_witness :
    (∀ m ∈ witnessMsgs, m.wf) ∧
      (∀ m ∈ witnessMsgs, (dumps m).length < 2 ^ 64) ∧
      (∀ c ∈ witnessChunks, c ≠ []) ∧
      witnessChunks.flatten = (witnessMsgs.map encodeFrame).flatten ∧
      (receiveLoop witnessChunks []).map loads = witnessMsgs.map some :=
  ⟨by decide, by decide, by decide, by decide,
    fragmentation_independence witnessMsgs witnessChunks
      (by decide) (by decide) (by decide) (by decide)⟩

/-- C4 counterexample.  The length header the encoder actually writes
is `struct.pack("Q", …)` in native (little-endian) order: at the empty
payload frame, whose serialized payload is 16 bytes long, the first 8
bytes of the message differ from the big-endian encoding of 16 that the
claim asserts. -/
theorem length_header_not_big_endian :
    (encodeFrame (⟨[], []⟩ : Frame)).take 8 ≠
      specBigEndianHeader (dumps (⟨[], []⟩ : Frame)).length := by
  decide

/-- C4 as amended.  The first 8 bytes of every message are the payload
length packed by `struct.pack("Q")` — 8-byte unsigned, native byte
order, little-endian on the hosts this program runs on — and the
receive loops read the prefix back with `struct.unpack("Q")`, the same
native format, recovering exactly the payload length. -/
theorem length_header_native_format (f : Frame)
    (hsize : (dumps f).length < 2 ^ 64) :
    (encodeFrame f).take 8 = packQ (dumps f).length ∧
      unpackQ (encodeFrame f) = (dumps f).length := by
  constructor
  · rw [encodeFrame, List.take_append_of_le_length (le_of_eq (packQ_length _).symm),
      List.take_of_length_le (le_of_eq (packQ_length _))]
  · rw [encodeFrame, unpackQ_append _ _ hsize]

/-- Witness for the amended C4 at a concrete frame. -/
theorem length_header_native_format_witness :
    (dumps witnessFrame).length < 2 ^ 64 ∧
      ((encodeFrame witnessFrame).take 8 = packQ (dumps witnessFrame).length ∧
        unpackQ (encodeFrame witnessFrame) = (dumps witnessFrame).length) :=
  ⟨by decide, length_header_native_format witnessFrame (by decide)⟩

/-- C8.  The 8-byte length field of every message equals the exact
serialized payload size, and consuming one message takes exactly
8 + declared-length bytes from the buffer front: whatever follows the
message — here an arbitrary suffix `rest` — is left for later messages,
untouched. -/
theorem length_field_exact_consumption (f : Frame) (rest : List Nat)
    (hsize : (dumps f).length < 2 ^ 64) :
    unpackQ (encodeFrame f ++ rest) = (dumps f).length ∧
      extractAll (encodeFrame f ++ rest) = dumps f :: extractAll rest := by
  refine ⟨?_, extractAll_encode_cons f rest hsize⟩
  rw [encodeFrame, List.append_assoc, unpackQ_append _ _ hsize]

/-- Witness for C8: a concrete message followed by junk bytes. -/
theorem length_field_exact_consumption_witness :
    (dumps witnessFrame).length < 2 ^ 64 ∧
      (unpackQ (encodeFrame witnessFrame ++ [9, 9, 9]) = (dumps witnessFrame).length ∧
        extractAll (encodeFrame witnessFrame ++ [9, 9, 9]) =
          dumps witnessFrame :: extractAll [9, 9, 9]) :=
  ⟨by decide, length_field_exact_consumption witnessFrame [9, 9, 9] (by decide)⟩

/-! ## Broadcast fan-out

`broadcast_landmarks` (`blender_server.py` lines 156-186; the same
two-phase pattern is `broadcast_frame` in `main.py` lines 317-355):
build the message once, `sendall` it to every client in `self.clients`
collecting failures in `disconnected`, then remove each failed client
from the list (`if client in self.clients: self.clients.remove(client)`)
and `close()` it inside `try/except`.  The whole operation sits in an
outer `try/except`, so it never raises to its caller; the model below
is a total function for the same reason.  A connection is modelled by
an identifier and whether `sendall` to it succeeds. -/

/-- A registered client connection: its identity and whether a full
write (`sendall`) to it succeeds. -/
structure Conn where
  id : Nat
  ok : Bool
deriving DecidableEq, Repr

/-- The send phase: the deliveries made (client id with the full bytes
written), in iteration order, and the `disconnected` list. -/
def sendPhase (clients : List Conn) (message : List Nat) :
    List (Nat × List Nat) × List Conn :=
  match clients with
  | [] => ([], [])
  | c :: cs =>
    let r := sendPhase cs message
    if c.ok then ((c.id, message) :: r.1, r.2) else (r.1, c :: r.2)

/-- The removal phase: `for client in disconnected: if client in
self.clients: self.clients.remove(client)`. -/
def removePhase (clients disconnected : List Conn) : List Conn :=
  disconnected.foldl (fun acc c => if acc.contains c then acc.erase c else acc) clients

/-- Result of one `broadcast_landmarks` call: the surviving client
list, the deliveries made, and the ids of the closed connections. -/
structure BroadcastResult where
  clients : List Conn
  deliveries : List (Nat × List Nat)
  closed : List Nat
deriving DecidableEq, Repr

/-- One `broadcast_landmarks(landmarks)` call: pickle the payload with
an empty image blob, prefix its length, send to every client, then
remove and close the failed ones. -/
def broadcast_landmarks (clients : List Conn) (landmarks : List Hand) : BroadcastResult :=
  let data := dumps ⟨landmarks, []⟩
  let message := packQ data.length ++ data
  let sent := sendPhase clients message
  { clients := removePhase clients sent.2
    deliveries := sent.1
    closed := sent.2.map Conn.id }

theorem sendPhase_eq (clients : List Conn) (message : List Nat) :
    sendPhase clients message =
      ((clients.filter (fun c => c.ok)).map (fun c => (c.id, message)),
        clients.filter (fun c => !c.ok)) := by
  induction clients with
  | nil => rfl
  | cons c cs ih =>
    rw [sendPhase, ih]
    by_cases h : c.ok
    · simp [h, List.filter_cons]
    · simp only [h, if_false, List.filter_cons]
      simp [h]

theorem foldl_erase_all_of_not_pred {α : Type} [DecidableEq α] (p : α → Bool)
    (x : α) (hx : p x = false) :
    ∀ (ds t : List α), (∀ y ∈ ds, p y = true) →
      List.foldl List.erase (x :: t) ds = x :: List.foldl List.erase t ds := by
  intro ds
  induction ds with
  | nil => intro t _; rfl
  | cons d ds ih =>
    intro t hall
    have hdx : d ≠ x := fun h => by
      rw [h] at hall
      have := hall x (List.mem_cons_self _ _)
      rw [hx] at this
      exact Bool.false_ne_true this
    rw [List.foldl_cons, List.erase_cons_tail (by simpa using fun h => hdx h.symm),
      List.foldl_cons]
    exact ih (t.erase d) (fun y hy => hall y (List.mem_cons_of_mem _ hy))

theorem foldl_erase_filter {α : Type} [DecidableEq α] (p : α → Bool) (l : List α) :
    List.foldl List.erase l (l.filter p) = l.filter (fun x => !p x) := by
  induction l with
  | nil => rfl
  | cons x t ih =>
    by_cases h : p x
    · rw [List.filter_cons_of_pos h, List.foldl_cons, List.erase_cons_head,
        ih, List.filter_cons_of_neg (by simp [h])]
    · have hx : p x = false := by simpa using h
      rw [List.filter_cons_of_neg (by simp [hx]),
        foldl_erase_all_of_not_pred p x hx (t.filter p) t
          (fun y hy => List.of_mem_filter hy),
        ih, List.filter_cons_of_pos (by simp [hx])]

theorem removePhase_contains_eq_erase (clients disconnected : List Conn) :
    removePhase clients disconnected = List.foldl List.erase clients disconnected := by
  rw [removePhase]
  congr 1
  funext acc c
  by_cases h : acc.contains c
  · rw [if_pos h]
  · rw [if_neg h, List.erase_of_not_mem (by simpa using h)]

/-- C3.  One `broadcast_landmarks` call delivers the full encoded
frame to every connection whose write succeeds, removes exactly the
failing connections from the client list, closes exactly those, and —
being a total function, like the Python original whose body sits under
a catch-all `try/except` — returns to its caller on every input. -/
theorem broadcast_isolation (clients : List Conn) (landmarks : List Hand) :
    (broadcast_landmarks clients landmarks).deliveries =
        (clients.filter (fun c => c.ok)).map
          (fun c => (c.id, encodeFrame ⟨landmarks, []⟩)) ∧
      (broadcast_landmarks clients landmarks).clients =
        clients.filter (fun c => c.ok) ∧
      (broadcast_landmarks clients landmarks).closed =
        (clients.filter (fun c => !c.ok)).map Conn.id := by
  have hb : broadcast_landmarks clients landmarks =
      { clients := removePhase clients (clients.filter (fun c => !c.ok))
        deliveries := (clients.filter (fun c => c.ok)).map
          (fun c => (c.id, encodeFrame ⟨landmarks, []⟩))
        closed := (clients.filter (fun c => !c.ok)).map Conn.id } := by
    rw [broadcast_landmarks]
    rw [show packQ (dumps (⟨landmarks, []⟩ : Frame)).length ++ dumps ⟨landmarks, []⟩ =
      encodeFrame ⟨landmarks, []⟩ from rfl]
    rw [sendPhase_eq]
  rw [hb]
  refine ⟨rfl, ?_, rfl⟩
  rw [removePhase_contains_eq_erase, foldl_erase_filter]
  simp

/-! ## The Blender receive loop's hand_data update

`blender_hand_tracker.py` lines 185-191: after decoding a message,
`for i in range(min(2, len(landmarks))): self.hand_data[i] = landmarks[i]`
then `for i in range(len(landmarks), 2): self.hand_data[i] = None`.
`hand_data` is the two-slot list created as `[None, None]` (line 48). -/

/-- The two assignment loops run on the current `hand_data`. -/
def updateHandData (hand_data : List (Option Hand)) (landmarks : List Hand) :
    List (Option Hand) :=
  let hd := (List.range (min 2 landmarks.length)).foldl
    (fun a i => a.set i (landmarks.get? i)) hand_data
  (List.range' landmarks.length (2 - landmarks.length)).foldl
    (fun a i => a.set i none) hd

/-- Processing a sequence of decoded frames updates `hand_data` in
order; this is all the state the receive loop keeps. -/
def processFrames (hand_data : List (Option Hand)) (frames : List Frame) :
    List (Option Hand) :=
  frames.foldl (fun hd f => updateHandData hd f.landmarks) hand_data

/-- On a two-slot `hand_data`, one update leaves exactly the first two
received hands (slot `i` holds hand `i` when `i < min(k, 2)`, `none`
when `k ≤ i < 2`), independent of the previous contents. -/
theorem updateHandData_eq (hand_data : List (Option Hand)) (landmarks : List Hand)
    (h2 : hand_data.length = 2) :
    updateHandData hand_data landmarks = [landmarks.get? 0, landmarks.get? 1] := by
  obtain ⟨x, y, rfl⟩ := List.length_eq_two.mp h2
  match landmarks with
  | [] => rfl
  | [a] => rfl
  | a :: b :: t =>
    rw [updateHandData]
    have hmin : min 2 (a :: b :: t).length = 2 := by
      simp [List.length_cons]
    have hsub : 2 - (a :: b :: t).length = 0 := by
      simp [List.length_cons]
    rw [hmin, hsub]
    rfl

/-- C9.  After the receive loop processes a message with hand list
`landmarks` (k hands), the two-slot `hand_data` holds hand `i` in slot
`i` for `i < min(k, 2)`, `none` in slot `i` for `k ≤ i < 2`, and drops
hands beyond the first two in detector order: the new contents are
exactly `[landmarks[0]?, landmarks[1]?]`, with no dependence on the
previous frame's data. -/
theorem hand_data_update_spec (hand_data : List (Option Hand)) (landmarks : List Hand)
    (h2 : hand_data.length = 2) :
    updateHandData hand_data landmarks = [landmarks.get? 0, landmarks.get? 1] :=
  updateHandData_eq hand_data landmarks h2

/-- Witness for C9 at a three-hand message on a stale two-slot state. -/
theorem hand_data_update_spec_witness :
    ([some [], some []] : List (Option Hand)).length = 2 ∧
      updateHandData [some [], some []] [[⟨1, 1, 1⟩], [⟨2, 2, 2⟩], [⟨3, 3, 3⟩]] =
        [some [⟨1, 1, 1⟩], some [⟨2, 2, 2⟩]] :=
  ⟨by decide,
    hand_data_update_spec [some [], some []] [[⟨1, 1, 1⟩], [⟨2, 2, 2⟩], [⟨3, 3, 3⟩]]
      (by decide)⟩

/-- C5.  Processing F1, F2, F3 in order leaves `hand_data` equal to
F3's hand data — identical to processing F3 alone — and the loop's
state is this single two-slot cell, so no queue of earlier frames is
visible to the consumer. -/
theorem latest_value_semantics (hand_data : List (Option Hand)) (f1 f2 f3 : Frame)
    (h2 : hand_data.length = 2) :
    processFrames hand_data [f1, f2, f3] =
        [f3.landmarks.get? 0, f3.landmarks.get? 1] ∧
      processFrames hand_data [f1, f2, f3] = processFrames hand_data [f3] := by
  have s1 := updateHandData_eq hand_data f1.landmarks h2
  have s2 := updateHandData_eq [f1.landmarks.get? 0, f1.landmarks.get? 1] f2.landmarks rfl
  have s3 := updateHandData_eq [f2.landmarks.get? 0, f2.landmarks.get? 1] f3.landmarks rfl
  have h123 : processFrames hand_data [f1, f2, f3] =
      [f3.landmarks.get? 0, f3.landmarks.get? 1] := by
    rw [processFrames, List.foldl_cons, s1, List.foldl_cons, s2, List.foldl_cons, s3,
      List.foldl_nil]
  refine ⟨h123, ?_⟩
  rw [h123, processFrames, List.foldl_cons, updateHandData_eq hand_data f3.landmarks h2,
    List.foldl_nil]

/-- Witness for C5 at three concrete frames. -/
theorem latest_value_semantics_witness :
    ([none, none] : List (Option Hand)).length = 2 ∧
      (processFrames [none, none]
          [⟨[[⟨1, 1, 1⟩]], []⟩, ⟨[[⟨2, 2, 2⟩], [⟨5, 5, 5⟩]], []⟩, ⟨[[⟨3, 3, 3⟩]], []⟩] =
          [some [⟨3, 3, 3⟩], none] ∧
        processFrames [none, none]
            [⟨[[⟨1, 1, 1⟩]], []⟩, ⟨[[⟨2, 2, 2⟩], [⟨5, 5, 5⟩]], []⟩, ⟨[[⟨3, 3, 3⟩]], []⟩] =
          processFrames [none, none] [⟨[[⟨3, 3, 3⟩]], []⟩]) :=
  ⟨by decide,
    latest_value_semantics [none, none]
      ⟨[[⟨1, 1, 1⟩]], []⟩ ⟨[[⟨2, 2, 2⟩], [⟨5, 5, 5⟩]], []⟩ ⟨[[⟨3, 3, 3⟩]], []⟩ (by decide)⟩

/-! ## Client connect

`connect_to_server` in `blender_hand_tracker.py` (lines 130-151):
create the socket, `connect`; on success set `is_connected` and
`is_receiving`, start the receive thread and return `True`; on any
exception print and return `False`, touching neither flag and starting
no thread.  `viewer_3d.py` (lines 167-189) is the same except the
handler sets `is_connected = False` explicitly and the function
returns `None`. -/

/-- The client state the claim is about: the two flags and how many
receive threads have been started. -/
structure ClientState where
  is_connected : Bool
  is_receiving : Bool
  receive_threads : Nat
deriving DecidableEq, Repr

/-- `connect_to_server` of the Blender tracker; `connect_ok` is whether
`socket.connect` succeeds.  Returns the new state and the returned
boolean. -/
def connect_to_server (st : ClientState) (connect_ok : Bool) : ClientState × Bool :=
  if connect_ok then
    ({ is_connected := true, is_receiving := true,
       receive_threads := st.receive_threads + 1 }, true)
  else
    (st, false)

/-- `connect_to_server` of the 3-D viewer; its failure handler sets
`is_connected = False` and the function returns nothing. -/
def connect_to_server_viewer (st : ClientState) (connect_ok : Bool) : ClientState :=
  if connect_ok then
    { is_connected := true, is_receiving := true,
      receive_threads := st.receive_threads + 1 }
  else
    { st with is_connected := false }

/-- C10.  A failed connect is caught (both functions return normally),
returns a failure indication (`False` in the tracker; the viewer leaves
`is_connected` false), and changes no client state: starting
disconnected, both flags remain false and no receive thread is
started, in both clients. -/
theorem connect_failure_no_state_change (st : ClientState)
    (hc : st.is_connected = false) (hr : st.is_receiving = false) :
    (connect_to_server st false).2 = false ∧
      (connect_to_server st false).1 = st ∧
      (connect_to_server st false).1.is_connected = false ∧
      (connect_to_server st false).1.is_receiving = false ∧
      (connect_to_server_viewer st false).is_connected = false ∧
      (connect_to_server_viewer st false).is_receiving = false ∧
      (connect_to_server_viewer st false).receive_threads = st.receive_threads := by
  refine ⟨rfl, rfl, hc, hr, rfl, ?_, rfl⟩
  rw [connect_to_server_viewer]
  simpa using hr

/-- Witness for C10 from the freshly initialized client state. -/
theorem connect_failure_no_state_change_witness :
    (⟨false, false, 0⟩ : ClientState).is_connected = false ∧
      ((connect_to_server ⟨false, false, 0⟩ false).2 = false ∧
        (connect_to_server ⟨false, false, 0⟩ false).1 = ⟨false, false, 0⟩ ∧
        (connect_to_server ⟨false, false, 0⟩ false).1.is_connected = false ∧
        (connect_to_server ⟨false, false, 0⟩ false).1.is_receiving = false ∧
        (connect_to_server_viewer ⟨false, false, 0⟩ false).is_connected = false ∧
        (connect_to_server_viewer ⟨false, false, 0⟩ false).is_receiving = false ∧
        (connect_to_server_viewer ⟨false, false, 0⟩ false).receive_threads = 0) :=
  ⟨rfl, connect_failure_no_state_change ⟨false, false, 0⟩ rfl rfl⟩

/-! ## Hand shape on the producer and receiver sides

Producer (`process_frame`, `blender_server.py` lines 138-146): for each
detected hand, copy every reported landmark's `x`, `y`, `z` into a
record — no count check of any kind.  Receiver (`receive_data`,
`viewer_3d.py` lines 233-243) hands each decoded hand to
`Hand3DModel.update_landmarks` (`hand_3d_model.py` lines 100-113),
which stores any truthy (non-empty) landmark list — the numpy
coordinate transform there maps each point to one point and is
modelled by keeping the source records, since only stored shape matters
here — and `Hand3DModel.draw` (lines 115-117) returns early exactly
when the stored landmarks are `None` or fewer than 21. -/

/-- The landmark extraction loop of `process_frame`: each hand's
records copied verbatim. -/
def extract_landmarks (results : List (List Landmark)) : List Hand :=
  results.map (fun hand_landmarks =>
    hand_landmarks.map (fun lm => (⟨lm.x, lm.y, lm.z⟩ : Landmark)))

/-- `Hand3DModel.update_landmarks`: store any non-empty hand, clear on
`None` or an empty (falsy) list. -/
def update_landmarks (landmarks_data : Option Hand) : Option Hand :=
  match landmarks_data with
  | some l => if l.isEmpty then none else some l
  | none => none

/-- The guard of `Hand3DModel.draw`: drawing proceeds unless the stored
landmarks are `None` or number fewer than 21. -/
def draw_proceeds (landmarks : Option Hand) : Bool :=
  match landmarks with
  | none => false
  | some l => decide (21 ≤ l.length)

/-- C7 counterexample.  The receiver does not reject wrongly shaped
hands: a decoded 22-point hand is stored by `update_landmarks` and then
drawn (the draw guard only skips hands with fewer than 21 points), and
a 5-point hand is likewise stored rather than rejected. -/
theorem receiver_accepts_malformed_hand :
    update_landmarks (some (List.replicate 22 ⟨0, 0, 0⟩)) =
        some (List.replicate 22 ⟨0, 0, 0⟩) ∧
      draw_proceeds (update_landmarks (some (List.replicate 22 ⟨0, 0, 0⟩))) = true ∧
      update_landmarks (some (List.replicate 5 ⟨0, 0, 0⟩)) =
        some (List.replicate 5 ⟨0, 0, 0⟩) := by
  decide

/-- C7 as amended.  The producer transmits each detector-reported hand
with its landmark count unchanged — exactly 21 whenever the detector
reports 21 per hand — and the receivers perform no structural
validation: the viewer stores any non-empty decoded hand whatever its
point count, and its draw step merely skips hands with fewer than 21
points while processing hands with 21 or more. -/
theorem hand_shape_behavior (results : List (List Landmark)) (h : Hand)
    (h21 : ∀ hand ∈ results, hand.length = 21) (hne : h ≠ []) :
    (∀ hand ∈ extract_landmarks results, hand.length = 21) ∧
      update_landmarks (some h) = some h ∧
      draw_proceeds (some h) = decide (21 ≤ h.length) := by
  refine ⟨?_, ?_, rfl⟩
  · intro hand hh
    rw [extract_landmarks] at hh
    obtain ⟨src, hsrc, rfl⟩ := List.mem_map.mp hh
    rw [List.length_map]
    exact h21 src hsrc
  · rw [update_landmarks, if_neg (by simpa using hne)]

/-- Witness for the amended C7: one 21-point detector hand and one
stored 21-point hand. -/
theorem hand_shape_behavior_witness :
    (∀ hand ∈ [witnessHand], hand.length = 21) ∧ witnessHand ≠ [] ∧
      ((∀ hand ∈ extract_landmarks [witnessHand], hand.length = 21) ∧
        update_landmarks (some witnessHand) = some witnessHand ∧
        draw_proceeds (some witnessHand) = decide (21 ≤ witnessHand.length)) :=
  ⟨by decide, by decide, hand_shape_behavior [witnessHand] witnessHand (by decide) (by decide)⟩

/-! ## The Blender receive loop's timeout handling

`receive_data` in `blender_hand_tracker.py` (lines 153-203) runs with
`settimeout(0.1)` on the socket.  Its body: an inner
`while len(data) < payload_size` recv loop, then
`data = data[payload_size:]` and `msg_size = struct.unpack(...)`, then
an inner `while len(data) < msg_size` recv loop, then the payload is
taken and `pickle.loads` decodes it.  `socket.timeout` raised by either
`recv` is handled by `except socket.timeout: continue`, which restarts
the OUTER loop: `data` is kept but the 8 size bytes already stripped —
and the local `msg_size` — are gone.  A zero-length `recv` result
raises `ConnectionError`, and it, like any `pickle.loads` failure, hits
the generic handler, which disconnects and breaks. -/

/-- What one `recv` call can yield: a packet of bytes (zero-length
meaning the peer closed) or a `socket.timeout`. -/
inductive RecvEvent where
  | packet (bytes : List Nat)
  | timeout
deriving DecidableEq, Repr

mutual

/-- The outer loop of the tracker's `receive_data`, starting at the
size-collection phase, consuming a queue of `recv` results; the fuel
bounds the number of steps of this run.  Returns the frames decoded. -/
def trackerLoop : Nat → List RecvEvent → List Nat → List Frame
  | 0, _, _ => []
  | fuel + 1, evs, data =>
    if data.length < 8 then
      match evs with
      | [] => []
      | .packet p :: evs' =>
        if p.isEmpty then [] else trackerLoop fuel evs' (data ++ p)
      | .timeout :: evs' => trackerLoop fuel evs' data
    else
      trackerBody fuel evs (data.drop 8) (unpackQ data)

/-- The payload-collection phase: `data` no longer holds the size
bytes, `msg_size` lives only in this phase — a timeout here returns to
`trackerLoop` without it. -/
def trackerBody : Nat → List RecvEvent → List Nat → Nat → List Frame
  | 0, _, _, _ => []
  | fuel + 1, evs, data, msg_size =>
    if data.length < msg_size then
      match evs with
      | [] => []
      | .packet p :: evs' =>
        if p.isEmpty then [] else trackerBody fuel evs' (data ++ p) msg_size
      | .timeout :: evs' => trackerLoop fuel evs' data
    else
      match loads (data.take msg_size) with
      | some f => f :: trackerLoop fuel evs (data.drop msg_size)
      | none => []

end

/-- The message used to exhibit the timeout bug: no hands, a 3-byte
image blob. -/
def bugFrame : Frame := ⟨[], [5, 6, 7]⟩

/-- C6.  A timeout mid-message corrupts the framing state instead of
letting the retry resume the same message: delivering the 8 size bytes
of one message, then a `socket.timeout`, then the 19 payload bytes
makes the loop re-parse the start of the payload as a new size field
(reading 0), feed `pickle.loads` zero bytes, fail and tear down — zero
frames decoded.  The identical trace without the timeout decodes the
frame.  A zero-length read, by contrast, ends the run at once. -/
theorem timeout_mid_message_desyncs :
    trackerLoop 10 [.packet (packQ (dumps bugFrame).length), .timeout,
        .packet (dumps bugFrame)] [] = [] ∧
      trackerLoop 10 [.packet (packQ (dumps bugFrame).length),
        .packet (dumps bugFrame)] [] = [bugFrame] ∧
      trackerLoop 10 [.packet [], .packet (encodeFrame bugFrame)] [] = [] := by
  refine ⟨?_, ?_, rfl⟩ <;> decide

end HandTracker
